import Mathlib

/-!
# Verification of the remote CAN server (`can/interfaces/remote/server.py`)

Shallow embedding of the `ClientBusConnection` request handler: the
handshake performed in `handle`, the client-to-bus relay loop
(`_receive_from_client` together with `send_msg`), the bus-to-client relay
loop (`_send_to_client` together with `_next_event_from_bus`), the periodic
send-task registry (`send_tasks`), and the server's client registry
(`RemoteServer.clients` mutated in `setup`, `handle` and `finish`).

External collaborators (socket, bus driver) are modelled as explicit
inputs: the stream of decoded events arriving from the client is a
`List Event`, the results of successive `bus.recv` calls are a
`List RecvResult`, the writability of the socket at each loop iteration is
a `List Bool`, and whether `bus.send` raises `can.CanError` for a given
message is a predicate `Msg → Bool`.  Calls made into the bus driver are
recorded in traces (`BusCall`, `Action`) so that ordering and counting
properties can be stated.
-/

namespace RemoteCan

/-- A CAN message as far as the server inspects it: `server.py` reads only
`msg.arbitration_id`; the payload is carried opaquely. -/
structure Msg where
  arbitration_id : Nat
  data : List Nat
  deriving DecidableEq, Repr

/-- The protocol events of `can.interfaces.remote.events` that
`server.py` constructs or dispatches on. -/
inductive Event
  | BusRequest (version : Nat) (bitrate : Nat)
  | FilterConfig (can_filters : List (Nat × Nat))
  | BusResponse (channel_info : String)
  | CanMessage (msg : Msg)
  | PeriodicMessageStart (msg : Msg) (period : Nat) (duration : Nat)
  | PeriodicMessageStop (arbitration_id : Nat)
  | ConnectionClosed
  | RemoteException (description : String)
  | TransmitFail
  deriving DecidableEq, Repr

/-- A periodic send task handle as returned by `bus.send_periodic`:
the server later calls `modify_data` and `stop` on it.  We record the
current message and whether `stop` has been called. -/
structure SendTask where
  msg : Msg
  stopped : Bool
  deriving DecidableEq, Repr

/-- A call made into the bus driver by the client-to-bus path. -/
inductive BusCall
  | send (msg : Msg)
  | send_periodic (msg : Msg) (period : Nat) (duration : Nat)
  | modify_data (arbitration_id : Nat) (msg : Msg)
  | task_stop (arbitration_id : Nat)
  deriving DecidableEq, Repr

/-- Python `self.send_tasks[id]`: first binding for `id` in the association list
modelling the Python dict. -/
def lookupTask (id : Nat) : List (Nat × SendTask) → Option SendTask
  | [] => none
  | (k, t) :: rest => if k = id then some t else lookupTask id rest

/-- Mutating the task object stored under `id` in place (Python dict entry
keeps its position; no binding is added or removed). -/
def updateTask (id : Nat) (f : SendTask → SendTask) :
    List (Nat × SendTask) → List (Nat × SendTask)
  | [] => []
  | (k, t) :: rest =>
      if k = id then (k, f t) :: rest else (k, t) :: updateTask id f rest

/-- Per-session state touched by `_receive_from_client`: the periodic task
registry `self.send_tasks`, the liveness flag `self.stop_event`
(`true` = set, i.e. stop requested), and the events queued on
`self.conn` for delivery to the client. -/
structure SessionState where
  send_tasks : List (Nat × SendTask)
  stopRequested : Bool
  outbound : List Event
  deriving DecidableEq, Repr

/-- Python `KeyError`, raised by `self.send_tasks[event.arbitration_id]` when the
arbitration ID is not a key of the dict. -/
inductive RelayError
  | keyError (arbitration_id : Nat)
  deriving DecidableEq, Repr

/-- Whether the loop body falls through to the next iteration or executes
`break`. -/
inductive LoopSignal
  | cont
  | brk
  deriving DecidableEq, Repr

/-- One dispatch step of `_receive_from_client` (lines 128-143 of
`server.py`) on an already-decoded event, together with `send_msg`
(lines 171-177).  `sendFails msg` says whether `self.bus.send(msg)` raises
`can.CanError`.  Returns the new state, the bus-driver calls made, and
whether the loop continues — or the uncaught `KeyError` from the
`PeriodicMessageStop` branch. -/
def receiveDispatch (sendFails : Msg → Bool) (st : SessionState) (e : Event) :
    Except RelayError (SessionState × List BusCall × LoopSignal) :=
  match e with
  | .CanMessage m =>
      if sendFails m then
        .ok ({ st with outbound := st.outbound ++ [.TransmitFail] },
             [.send m], .cont)
      else
        .ok (st, [.send m], .cont)
  | .ConnectionClosed => .ok (st, [], .brk)
  | .PeriodicMessageStart m period duration =>
      match lookupTask m.arbitration_id st.send_tasks with
      | some _ =>
          let tasks := updateTask m.arbitration_id (fun t => { t with msg := m }) st.send_tasks
          .ok ({ st with send_tasks := tasks }, [.modify_data m.arbitration_id m], .cont)
      | none =>
          let tasks := st.send_tasks ++ [(m.arbitration_id, ⟨m, false⟩)]
          .ok ({ st with send_tasks := tasks }, [.send_periodic m period duration], .cont)
  | .PeriodicMessageStop id =>
      match lookupTask id st.send_tasks with
      | some _ =>
          let tasks := updateTask id (fun t => { t with stopped := true }) st.send_tasks
          .ok ({ st with send_tasks := tasks }, [.task_stop id], .cont)
      | none => .error (.keyError id)
  | _ => .ok (st, [], .cont)

/-- Outcome of running `_receive_from_client` over a stream of decoded
events: final state, bus-driver call trace, and the uncaught exception if
one was raised (terminating the loop). -/
structure ReceiveOutcome where
  state : SessionState
  calls : List BusCall
  errored : Option RelayError
  deriving DecidableEq, Repr

/-- The loop of `_receive_from_client` (lines 124-143): while the stop
event is not set, read the next decoded event and dispatch it.  The input
list is the stream of events the framer yields; when it is exhausted the
loop blocks on the socket, which we model by returning. -/
def receiveFromClient (sendFails : Msg → Bool) (st : SessionState) :
    List Event → ReceiveOutcome
  | [] => ⟨st, [], none⟩
  | e :: rest =>
      if st.stopRequested then ⟨st, [], none⟩
      else
        match receiveDispatch sendFails st e with
        | .error err => ⟨st, [], some err⟩
        | .ok (st', calls, .brk) => ⟨st', calls, none⟩
        | .ok (st', calls, .cont) =>
            let o := receiveFromClient sendFails st' rest
            ⟨o.state, calls ++ o.calls, o.errored⟩

/-! ## Bus-to-client loop (`_send_to_client`, `_next_event_from_bus`) -/

/-- The result of one `self.bus.recv(timeout)` call: a message, a timeout
(`None`), or a raised `can.CanError` carrying a description. -/
inductive RecvResult
  | frame (m : Msg)
  | empty
  | fault (description : String)
  deriving DecidableEq, Repr

/-- Function `_next_event_from_bus` (lines 111-122): translate one `bus.recv`
result into an optional event — `can.CanError` becomes a
`RemoteException` event, a timeout becomes `None`. -/
def nextEventFromBus : RecvResult → Option Event
  | .frame m => some (.CanMessage m)
  | .empty => none
  | .fault d => some (.RemoteException d)

/-- Observable steps the bus-to-client loop performs, in order:
`bus.recv` polls with their timeout (tenths of a second: the code uses
0.5 s and 0 s), the `select` writability check on the socket, the
`sendall` flush of buffered events, and `bus.shutdown`. -/
inductive Action
  | pollBus (timeoutTenths : Nat)
  | selectWritable
  | flushData (events : List Event)
  | busShutdown
  deriving DecidableEq, Repr

/-- The inner drain of `_send_to_client` (lines 155-162) after the first
event of the iteration was already appended to the buffer and was not a
`RemoteException`: repeatedly poll `bus.recv(0)`, queue the event, stop
on `None`, and set the stop event and `break` on a `RemoteException`.
The input list holds the remaining `bus.recv` results; when exhausted a
poll returns `None`.  Returns the unconsumed results, the grown buffer,
the action trace, and whether the stop event was set. -/
def drainRest : List RecvResult → List Event → List Action →
    List RecvResult × List Event × List Action × Bool
  | [], out, acts => ([], out, acts ++ [.pollBus 0], false)
  | .empty :: rest, out, acts => (rest, out, acts ++ [.pollBus 0], false)
  | .fault d :: rest, out, acts =>
      (rest, out ++ [.RemoteException d], acts ++ [.pollBus 0], true)
  | .frame m :: rest, out, acts =>
      drainRest rest (out ++ [.CanMessage m]) (acts ++ [.pollBus 0])

/-- State threaded through `_send_to_client`: the liveness flag
(`self.stop_event`), the events queued on `self.conn` and not yet
flushed, the trace of observable actions, and the concatenation of all
events flushed to the client by `sendall` so far. -/
structure SenderState where
  stopRequested : Bool
  outbound : List Event
  actions : List Action
  flushed : List Event
  deriving DecidableEq, Repr

/-- One iteration of the `while` loop of `_send_to_client`
(lines 147-166): a `bus.recv(0.5)` poll, the `select` writability check,
the drain of all immediately available bus events into the buffer
(aborted by a `RemoteException`, which sets the stop event), and the
conditional flush (`if self.conn.data_ready() and client_ready`).
`ready` is the result of the `select` call. -/
def senderIteration (bus : List RecvResult) (ready : Bool) (s : SenderState) :
    List RecvResult × SenderState :=
  let firstPoll : Option Event × List RecvResult :=
    match bus with
    | [] => (none, [])
    | r :: rest => (nextEventFromBus r, rest)
  let acts := s.actions ++ [.pollBus 5, .selectWritable]
  let afterDrain : List RecvResult × List Event × List Action × Bool :=
    match firstPoll.1 with
    | none => (firstPoll.2, s.outbound, acts, false)
    | some (.RemoteException d) =>
        (firstPoll.2, s.outbound ++ [.RemoteException d], acts, true)
    | some e => drainRest firstPoll.2 (s.outbound ++ [e]) acts
  let stop' := s.stopRequested || afterDrain.2.2.2
  let out := afterDrain.2.1
  if out ≠ [] ∧ ready then
    (afterDrain.1,
     ⟨stop', [], afterDrain.2.2.1 ++ [.flushData out], s.flushed ++ out⟩)
  else
    (afterDrain.1, ⟨stop', out, afterDrain.2.2.1, s.flushed⟩)

/-- The full `_send_to_client` loop (lines 145-169): iterate while the
stop event is not set, then call `self.bus.shutdown()`.  `fuel` bounds
the number of iterations (the theorems pick it large enough); `readys`
supplies the `select` outcome per iteration, defaulting to writable. -/
def senderLoop : Nat → List RecvResult → List Bool → SenderState → SenderState
  | 0, _, _, s => s
  | Nat.succ fuel, bus, readys, s =>
      if s.stopRequested then { s with actions := s.actions ++ [.busShutdown] }
      else
        let ready := (readys.head?).getD true
        let step := senderIteration bus ready s
        senderLoop fuel step.1 readys.tail step.2

/-! ## Handshake (`handle`, lines 60-90) -/

/-- How `handle` ends (or where it blocks) before entering the relay
phase. -/
inductive HandleResult
  | blocked
  | handshakeFail
  | versionMismatch (clientVersion serverVersion : Nat)
  | busOpenFail (description : String)
  | relaying (channel_info : String)
  deriving DecidableEq, Repr

/-- Observable outcome of `handle` up to the start of the relay loops:
the result, whether `can.interface.Bus(**self.config)` was invoked,
the events flushed to the client by the `finally` branch, whether the
success-path `self.server.clients.append(self)` at line 85 ran, and the
bitrate left in `self.config` after the `setdefault` call. -/
structure HandleOutcome where
  result : HandleResult
  busOpenAttempted : Bool
  sentEvents : List Event
  registeredAgain : Bool
  configBitrate : Option Nat
  deriving DecidableEq, Repr

/-- Method `handle` (lines 60-90) up to starting the relay loops.  The decoded
events arriving from the client are `evs` (an empty list models a socket
that never yields the needed event, blocking `_next_event`);
`serverBitrate` is the `bitrate` entry of the server's base config if
fixed there; `busOpenResult` is what `can.interface.Bus(**self.config)`
does — a channel info string or a raised exception description. -/
def handleSession (serverVersion : Nat) (serverBitrate : Option Nat)
    (busOpenResult : Except String String) (evs : List Event) : HandleOutcome :=
  match evs with
  | [] => ⟨.blocked, false, [], false, serverBitrate⟩
  | e1 :: rest1 =>
      match e1 with
      | .BusRequest v bitrate =>
          if v ≠ serverVersion then
            ⟨.versionMismatch v serverVersion, false, [], false, serverBitrate⟩
          else
            let cfgBitrate := some (serverBitrate.getD bitrate)
            match rest1 with
            | [] => ⟨.blocked, false, [], false, cfgBitrate⟩
            | e2 :: _ =>
                match e2 with
                | .FilterConfig _ =>
                    match busOpenResult with
                    | .error d =>
                        ⟨.busOpenFail d, true, [.RemoteException d], false, cfgBitrate⟩
                    | .ok info =>
                        ⟨.relaying info, true, [.BusResponse info], true, cfgBitrate⟩
                | _ => ⟨.handshakeFail, false, [], false, cfgBitrate⟩
      | _ => ⟨.handshakeFail, false, [], false, serverBitrate⟩

/-! ## Server client registry (`RemoteServer.clients`) -/

/-- Method `setup` (line 58): `self.server.clients.append(self)`. -/
def clientsAfterSetup (clients : List Nat) (sid : Nat) : List Nat :=
  clients ++ [sid]

/-- The success branch of `handle` (line 85) appends the session to
`self.server.clients` a second time; every failure path raises before
reaching it. -/
def clientsAfterHandle (reachedRelaying : Bool) (clients : List Nat)
    (sid : Nat) : List Nat :=
  if reachedRelaying then clients ++ [sid] else clients

/-- Method `finish` (line 95): `self.server.clients.remove(self)` — removes the
first occurrence. -/
def clientsAfterFinish (clients : List Nat) (sid : Nat) : List Nat :=
  clients.erase sid

/-! ## Auxiliary predicates -/

/-- Event types carrying a branch in the dispatch of
`_receive_from_client`; every other event falls through the
`if`/`elif` chain. -/
def relayHandled : Event → Bool
  | .CanMessage _ => true
  | .ConnectionClosed => true
  | .PeriodicMessageStart _ _ _ => true
  | .PeriodicMessageStop _ => true
  | _ => false

/-- Number of bindings for `id` in the task registry. -/
def countKey (id : Nat) (l : List (Nat × SendTask)) : Nat :=
  (l.filter (fun p => p.1 == id)).length

/-- Whether an action trace contains a zero-wait bus poll somewhere after
a socket-writability check. -/
def zeroPollAfterSelect : List Action → Bool
  | [] => false
  | .selectWritable :: rest =>
      rest.any (fun a => a == .pollBus 0) || zeroPollAfterSelect rest
  | _ :: rest => zeroPollAfterSelect rest

/-! ## Registry lemmas -/

theorem countKey_nil (id : Nat) : countKey id [] = 0 := rfl

theorem countKey_cons (id k : Nat) (t : SendTask) (l : List (Nat × SendTask)) :
    countKey id ((k, t) :: l) = (if k = id then 1 else 0) + countKey id l := by
  simp only [countKey, List.filter_cons]
  by_cases h : k = id <;> simp [h, Nat.add_comm]

theorem countKey_updateTask (j id : Nat) (f : SendTask → SendTask)
    (l : List (Nat × SendTask)) :
    countKey j (updateTask id f l) = countKey j l := by
  induction l with
  | nil => rfl
  | cons p rest ih =>
      obtain ⟨k, t⟩ := p
      by_cases h : k = id <;> simp [updateTask, h, countKey_cons, ih]

theorem countKey_append_single (j k : Nat) (t : SendTask)
    (l : List (Nat × SendTask)) :
    countKey j (l ++ [(k, t)]) = countKey j l + (if k = j then 1 else 0) := by
  simp only [countKey, List.filter_append]
  by_cases h : k = j <;> simp [h]

theorem lookupTask_none_countKey (id : Nat) (l : List (Nat × SendTask))
    (h : lookupTask id l = none) : countKey id l = 0 := by
  induction l with
  | nil => rfl
  | cons p rest ih =>
      obtain ⟨k, t⟩ := p
      by_cases hk : k = id
      · simp [lookupTask, hk] at h
      · simp only [lookupTask, hk, if_false] at h
        simp [countKey_cons, hk, ih h]

theorem lookupTask_updateTask (id : Nat) (f : SendTask → SendTask)
    (l : List (Nat × SendTask)) :
    lookupTask id (updateTask id f l) = (lookupTask id l).map f := by
  induction l with
  | nil => rfl
  | cons p rest ih =>
      obtain ⟨k, t⟩ := p
      by_cases hk : k = id <;> simp [updateTask, lookupTask, hk, ih]

theorem lookupTask_append_single_self (id : Nat) (t : SendTask)
    (l : List (Nat × SendTask)) (h : lookupTask id l = none) :
    lookupTask id (l ++ [(id, t)]) = some t := by
  induction l with
  | nil => simp [lookupTask]
  | cons p rest ih =>
      obtain ⟨k, u⟩ := p
      by_cases hk : k = id
      · simp [lookupTask, hk] at h
      · simp only [lookupTask, hk, if_false] at h
        simp [lookupTask, hk, ih h]

/-- Any successful dispatch step preserves the bound of one registry
binding per arbitration ID. -/
theorem dispatch_preserves_atMostOne (f : Msg → Bool) (st : SessionState)
    (e : Event) (st' : SessionState) (calls : List BusCall) (sig : LoopSignal)
    (h : receiveDispatch f st e = .ok (st', calls, sig))
    (hinv : ∀ j, countKey j st.send_tasks ≤ 1) (j : Nat) :
    countKey j st'.send_tasks ≤ 1 := by
  cases e with
  | CanMessage m =>
      by_cases hf : f m = true <;>
        simp [receiveDispatch, hf] at h <;>
        obtain ⟨h1, -, -⟩ := h <;> subst h1 <;> exact hinv j
  | ConnectionClosed =>
      simp [receiveDispatch] at h
      obtain ⟨h1, -, -⟩ := h
      subst h1; exact hinv j
  | PeriodicMessageStart m period duration =>
      rcases hl : lookupTask m.arbitration_id st.send_tasks with _ | t <;>
        simp [receiveDispatch, hl] at h <;> obtain ⟨h1, -, -⟩ := h <;> subst h1
      · by_cases hj : m.arbitration_id = j
        · have h0 : countKey j st.send_tasks = 0 := by
            rw [← hj]; exact lookupTask_none_countKey _ _ hl
          simp [countKey_append_single, hj, h0]
        · simp [countKey_append_single, hj]
          exact hinv j
      · simp [countKey_updateTask]
        exact hinv j
  | PeriodicMessageStop id =>
      rcases hl : lookupTask id st.send_tasks with _ | t <;>
        simp [receiveDispatch, hl] at h
      obtain ⟨h1, -, -⟩ := h
      subst h1
      simp [countKey_updateTask]
      exact hinv j
  | BusRequest v b =>
      simp [receiveDispatch] at h
      obtain ⟨h1, -, -⟩ := h; subst h1; exact hinv j
  | FilterConfig fs =>
      simp [receiveDispatch] at h
      obtain ⟨h1, -, -⟩ := h; subst h1; exact hinv j
  | BusResponse i =>
      simp [receiveDispatch] at h
      obtain ⟨h1, -, -⟩ := h; subst h1; exact hinv j
  | RemoteException d =>
      simp [receiveDispatch] at h
      obtain ⟨h1, -, -⟩ := h; subst h1; exact hinv j
  | TransmitFail =>
      simp [receiveDispatch] at h
      obtain ⟨h1, -, -⟩ := h; subst h1; exact hinv j

/-- Draining a run of immediately available frames followed by an empty
poll queues every frame, performs one zero-wait poll per result consumed,
and does not set the stop event. -/
theorem drainRest_frames (ms : List Msg) (rest : List RecvResult)
    (out : List Event) (acts : List Action) :
    drainRest (ms.map RecvResult.frame ++ RecvResult.empty :: rest) out acts =
      (rest, out ++ ms.map Event.CanMessage,
       acts ++ List.replicate (ms.length + 1) (Action.pollBus 0), false) := by
  induction ms generalizing out acts with
  | nil => simp [drainRest, List.replicate]
  | cons m tl ih =>
      rw [List.map_cons, List.cons_append]
      show drainRest (.frame m :: (tl.map RecvResult.frame ++ .empty :: rest)) out acts = _
      rw [drainRest, ih]
      simp [List.replicate_succ, List.append_assoc]

/-- Running `_receive_from_client` on a stream of plain CAN messages
issues one `bus.send` per message, in order, raises nothing, keeps the
stop event clear and leaves the task registry untouched. -/
theorem receiveFromClient_canMessages (f : Msg → Bool) (st : SessionState)
    (msgs : List Msg) (h : st.stopRequested = false) :
    (receiveFromClient f st (msgs.map Event.CanMessage)).calls
        = msgs.map BusCall.send ∧
    (receiveFromClient f st (msgs.map Event.CanMessage)).errored = none ∧
    (receiveFromClient f st (msgs.map Event.CanMessage)).state.stopRequested = false ∧
    (receiveFromClient f st (msgs.map Event.CanMessage)).state.send_tasks
        = st.send_tasks := by
  induction msgs generalizing st with
  | nil => simp [receiveFromClient, h]
  | cons m tl ih =>
      obtain ⟨tasks, stopb, outb⟩ := st
      dsimp only at h
      subst h
      by_cases hf : f m = true
      · have := ih ⟨tasks, false, outb ++ [.TransmitFail]⟩ rfl
        simp [receiveFromClient, receiveDispatch, hf, this]
      · have := ih ⟨tasks, false, outb⟩ rfl
        simp [receiveFromClient, receiveDispatch, hf, this]

/-! ## Claims -/

/-- C1: the claim says a session is registered in `server.clients` at most
once at any time and deregistered exactly once on teardown, leaving no
entry.  The code appends the session in `setup` (line 58) and appends it
again on the success path of `handle` (line 85), while `finish` (line 95)
removes only the first occurrence: a session that reaches the relay phase
is listed twice while relaying and one entry survives teardown. -/
theorem c1_registry_leftover_after_teardown :
    clientsAfterSetup [] 0 = [0] ∧
    clientsAfterHandle true (clientsAfterSetup [] 0) 0 = [0, 0] ∧
    clientsAfterFinish (clientsAfterHandle true (clientsAfterSetup [] 0) 0) 0 = [0] := by
  decide

/-- C2 (amended): processing a `PeriodicMessageStop` whose arbitration ID
has no registered task is not a no-op — the subscript
`self.send_tasks[event.arbitration_id]` at line 143 raises `KeyError`,
which terminates the relay loop; no bus-driver operation is invoked and
the state is unchanged when the exception propagates. -/
theorem c2_stop_unknown_id_raises_keyError (f : Msg → Bool)
    (st : SessionState) (id : Nat) (rest : List Event)
    (hnone : lookupTask id st.send_tasks = none)
    (hstop : st.stopRequested = false) :
    receiveDispatch f st (.PeriodicMessageStop id) = .error (.keyError id) ∧
    receiveFromClient f st (.PeriodicMessageStop id :: rest) =
      ⟨st, [], some (.keyError id)⟩ := by
  constructor
  · simp [receiveDispatch, hnone]
  · simp [receiveFromClient, receiveDispatch, hnone, hstop]

/-- Witness for C2's amended theorem at a concrete session state. -/
theorem c2_stop_unknown_id_raises_keyError_witness :
    receiveDispatch (fun _ => false) ⟨[], false, []⟩ (.PeriodicMessageStop 5)
        = .error (.keyError 5) ∧
    receiveFromClient (fun _ => false) ⟨[], false, []⟩ [.PeriodicMessageStop 5]
        = ⟨⟨[], false, []⟩, [], some (.keyError 5)⟩ :=
  c2_stop_unknown_id_raises_keyError (fun _ => false) ⟨[], false, []⟩ 5 [] rfl rfl

/-- C2 counterexample: the claim states a stop for an unregistered ID
raises no error, but at the empty registry it yields a `KeyError`. -/
theorem c2_stop_unknown_id_counterexample :
    receiveDispatch (fun _ => true) ⟨[], false, []⟩ (.PeriodicMessageStop 3)
        = .error (.keyError 3) := rfl

/-- C3 (amended): processing a `PeriodicMessageStop` for a registered
arbitration ID calls `stop` on the task handle, but the ID is NOT removed
from `self.send_tasks` (line 143 has no `del`/`pop`): the stopped task
stays registered under its ID. -/
theorem c3_stop_leaves_task_registered (f : Msg → Bool) (st : SessionState)
    (id : Nat) (t : SendTask)
    (hsome : lookupTask id st.send_tasks = some t) :
    receiveDispatch f st (.PeriodicMessageStop id) =
      .ok ({ st with send_tasks :=
               updateTask id (fun u => { u with stopped := true }) st.send_tasks },
           [.task_stop id], .cont) ∧
    lookupTask id (updateTask id (fun u => { u with stopped := true }) st.send_tasks)
        = some { t with stopped := true } := by
  constructor
  · simp [receiveDispatch, hsome]
  · rw [lookupTask_updateTask, hsome]
    rfl

/-- Witness for C3's amended theorem at a one-task registry. -/
theorem c3_stop_leaves_task_registered_witness :
    receiveDispatch (fun _ => false) ⟨[(7, ⟨⟨7, [1]⟩, false⟩)], false, []⟩
        (.PeriodicMessageStop 7)
      = .ok (⟨[(7, ⟨⟨7, [1]⟩, true⟩)], false, []⟩, [.task_stop 7], .cont) ∧
    lookupTask 7 (updateTask 7 (fun u => { u with stopped := true })
        [(7, ⟨⟨7, [1]⟩, false⟩)])
      = some ⟨⟨7, [1]⟩, true⟩ :=
  c3_stop_leaves_task_registered (fun _ => false)
    ⟨[(7, ⟨⟨7, [1]⟩, false⟩)], false, []⟩ 7 ⟨⟨7, [1]⟩, false⟩ rfl

/-- C3 counterexample: the claim states the arbitration ID is no longer
registered after the stop, but with a single task under ID 7 the registry
still holds a binding for 7 after processing the stop event. -/
theorem c3_stop_removal_counterexample :
    receiveDispatch (fun _ => false) ⟨[(7, ⟨⟨7, [1]⟩, false⟩)], false, []⟩
        (.PeriodicMessageStop 7)
      = .ok (⟨[(7, ⟨⟨7, [1]⟩, true⟩)], false, []⟩, [.task_stop 7], .cont) ∧
    lookupTask 7 [(7, ⟨⟨7, [1]⟩, true⟩)] = some ⟨⟨7, [1]⟩, true⟩ := ⟨rfl, rfl⟩

/-- C4: a `BusRequest` whose version differs from the server's protocol
version makes `handle` raise the mismatch error before reading the filter
event, before `can.interface.Bus` is invoked and before the session can
reach the relaying phase: nothing is sent, no bus handle is opened, and
the success-path registration does not run. -/
theorem c4_version_mismatch_aborts (serverVersion v bitrate : Nat)
    (serverBitrate : Option Nat) (busOpenResult : Except String String)
    (rest : List Event) (h : v ≠ serverVersion) :
    handleSession serverVersion serverBitrate busOpenResult
        (.BusRequest v bitrate :: rest) =
      ⟨.versionMismatch v serverVersion, false, [], false, serverBitrate⟩ := by
  simp [handleSession, h]

/-- Witness for C4 at client version 2 against server version 1. -/
theorem c4_version_mismatch_aborts_witness :
    handleSession 1 none (.ok "mock0") [.BusRequest 2 500000, .FilterConfig []] =
      ⟨.versionMismatch 2 1, false, [], false, none⟩ :=
  c4_version_mismatch_aborts 1 2 500000 none (.ok "mock0") [.FilterConfig []]
    (by decide)

/-- C5: every successful dispatch step keeps at most one registry binding
per arbitration ID, and starting a periodic task for an ID that is free
and then starting another for the same ID creates exactly one task via
`bus.send_periodic` and then modifies it in place via `modify_data`:
throughout, exactly one binding for that ID exists and it carries the
most recent payload. -/
theorem c5_at_most_one_task_per_id (f : Msg → Bool)
    (st0 : SessionState) (id : Nat) (m1 m2 : Msg) (p1 d1 p2 d2 : Nat)
    (hm1 : m1.arbitration_id = id) (hm2 : m2.arbitration_id = id)
    (hnone : lookupTask id st0.send_tasks = none) :
    (∀ (g : Msg → Bool) (stA stB : SessionState) (e : Event)
        (calls : List BusCall) (sig : LoopSignal),
      receiveDispatch g stA e = .ok (stB, calls, sig) →
      (∀ j, countKey j stA.send_tasks ≤ 1) →
      ∀ j, countKey j stB.send_tasks ≤ 1) ∧
    (let st1 : SessionState :=
       { st0 with send_tasks := st0.send_tasks ++ [(id, ⟨m1, false⟩)] }
     let st2 : SessionState :=
       { st1 with send_tasks :=
           updateTask id (fun u => { u with msg := m2 }) st1.send_tasks }
     receiveDispatch f st0 (.PeriodicMessageStart m1 p1 d1)
         = .ok (st1, [.send_periodic m1 p1 d1], .cont) ∧
     countKey id st1.send_tasks = 1 ∧
     lookupTask id st1.send_tasks = some ⟨m1, false⟩ ∧
     receiveDispatch f st1 (.PeriodicMessageStart m2 p2 d2)
         = .ok (st2, [.modify_data id m2], .cont) ∧
     countKey id st2.send_tasks = 1 ∧
     lookupTask id st2.send_tasks = some ⟨m2, false⟩) := by
  subst hm1
  have h1 : lookupTask m1.arbitration_id
      (st0.send_tasks ++ [(m1.arbitration_id, ⟨m1, false⟩)]) = some ⟨m1, false⟩ :=
    lookupTask_append_single_self _ _ _ hnone
  have h0 : countKey m1.arbitration_id st0.send_tasks = 0 :=
    lookupTask_none_countKey _ _ hnone
  refine ⟨fun g stA stB e calls sig hstep hinv j =>
      dispatch_preserves_atMostOne g stA e stB calls sig hstep hinv j,
    ?_, ?_, h1, ?_, ?_, ?_⟩
  · simp [receiveDispatch, hnone]
  · simp [countKey_append_single, h0]
  · simp [receiveDispatch, hm2, h1]
  · simp [countKey_updateTask, countKey_append_single, h0]
  · rw [lookupTask_updateTask, h1]
    rfl

/-- Witness for C5: two starts for arbitration ID 4 with different
payloads, from an empty registry. -/
theorem c5_at_most_one_task_per_id_witness :
    (∀ (g : Msg → Bool) (stA stB : SessionState) (e : Event)
        (calls : List BusCall) (sig : LoopSignal),
      receiveDispatch g stA e = .ok (stB, calls, sig) →
      (∀ j, countKey j stA.send_tasks ≤ 1) →
      ∀ j, countKey j stB.send_tasks ≤ 1) ∧
    (receiveDispatch (fun _ => false) ⟨[], false, []⟩
         (.PeriodicMessageStart ⟨4, [1]⟩ 10 0)
       = .ok (⟨[(4, ⟨⟨4, [1]⟩, false⟩)], false, []⟩,
              [.send_periodic ⟨4, [1]⟩ 10 0], .cont) ∧
     countKey 4 [(4, ⟨⟨4, [1]⟩, false⟩)] = 1 ∧
     lookupTask 4 [(4, ⟨⟨4, [1]⟩, false⟩)] = some ⟨⟨4, [1]⟩, false⟩ ∧
     receiveDispatch (fun _ => false) ⟨[(4, ⟨⟨4, [1]⟩, false⟩)], false, []⟩
         (.PeriodicMessageStart ⟨4, [2]⟩ 20 0)
       = .ok (⟨[(4, ⟨⟨4, [2]⟩, false⟩)], false, []⟩,
              [.modify_data 4 ⟨4, [2]⟩], .cont) ∧
     countKey 4 [(4, ⟨⟨4, [2]⟩, false⟩)] = 1 ∧
     lookupTask 4 [(4, ⟨⟨4, [2]⟩, false⟩)] = some ⟨⟨4, [2]⟩, false⟩) :=
  c5_at_most_one_task_per_id (fun _ => false) ⟨[], false, []⟩ 4
    ⟨4, [1]⟩ ⟨4, [2]⟩ 10 0 20 0 rfl rfl rfl

/-- C6 (amended): when `bus.recv` raises during the bus-to-client loop,
exactly one `RemoteException` event is queued, the stop event is set, the
loop performs no further `bus.recv` poll, and `bus.shutdown` runs on
exit; the queued exception is flushed to the client when the `select`
check of that iteration reported the socket writable, and otherwise
remains in the buffer, never delivered. -/
theorem c6_bus_fault_terminates (fuel : Nat) (d : String)
    (rest : List RecvResult) (ready : Bool) (rs : List Bool) :
    senderLoop (fuel + 2) (.fault d :: rest) (ready :: rs) ⟨false, [], [], []⟩ =
      if ready then
        ⟨true, [],
         [.pollBus 5, .selectWritable, .flushData [.RemoteException d],
          .busShutdown],
         [.RemoteException d]⟩
      else
        ⟨true, [.RemoteException d],
         [.pollBus 5, .selectWritable, .busShutdown], []⟩ := by
  rw [show fuel + 2 = Nat.succ (Nat.succ fuel) from rfl]
  cases ready <;> simp [senderLoop, senderIteration, nextEventFromBus]

/-- C6 counterexample: the claim states the `RemoteException` is
delivered to the client, but when the `select` check of the faulting
iteration reports the socket not writable, the event stays in the
outbound buffer and the flushed stream is empty when the loop exits and
shuts the bus down. -/
theorem c6_undelivered_exception_counterexample :
    (senderLoop 3 [.fault "e"] [false] ⟨false, [], [], []⟩).flushed = [] ∧
    (senderLoop 3 [.fault "e"] [false] ⟨false, [], [], []⟩).outbound
        = [.RemoteException "e"] ∧
    (senderLoop 3 [.fault "e"] [false] ⟨false, [], [], []⟩).stopRequested = true ∧
    (senderLoop 3 [.fault "e"] [false] ⟨false, [], [], []⟩).actions
        = [.pollBus 5, .selectWritable, .busShutdown] := by
  refine ⟨rfl, rfl, rfl, rfl⟩

/-- C7 (amended): an iteration of the bus-to-client loop performs one
bounded-wait poll, then checks socket writability, then drains the
remaining available bus events with zero-wait polls into the buffer, and
only then flushes — so a single flush carries all the drained events.
The claim's ordering (drain completes before the writability check) does
not hold: the check precedes the zero-wait drain polls. -/
theorem c7_drain_after_select_before_flush (m : Msg) (ms : List Msg)
    (rest : List RecvResult) :
    senderIteration ((m :: ms).map RecvResult.frame ++ RecvResult.empty :: rest)
        true ⟨false, [], [], []⟩ =
      (rest,
       ⟨false, [],
        [.pollBus 5, .selectWritable]
          ++ List.replicate (ms.length + 1) (.pollBus 0)
          ++ [.flushData ((m :: ms).map Event.CanMessage)],
        (m :: ms).map Event.CanMessage⟩) := by
  simp [senderIteration, nextEventFromBus, drainRest_frames]

/-- C7 counterexample: with two frames immediately available, the
iteration's action trace contains zero-wait polls after the writability
check, refuting the claim that all available events are drained before
the check. -/
theorem c7_select_before_drain_counterexample :
    zeroPollAfterSelect
        ((senderIteration [.frame ⟨1, [2]⟩, .frame ⟨3, [4]⟩, .empty] true
            ⟨false, [], [], []⟩).2.actions) = true := by
  rfl

/-- C8: a `CanMessage` whose `bus.send` raises `can.CanError` results in
exactly one `TransmitFail` queued for the client, the stop event is left
clear, the bus-driver trace records the attempted send, and the loop
continues with the remaining events. -/
theorem c8_send_failure_transmit_fail (f : Msg → Bool) (st : SessionState)
    (m : Msg) (rest : List Event)
    (hf : f m = true) (hstop : st.stopRequested = false) :
    receiveDispatch f st (.CanMessage m) =
      .ok ({ st with outbound := st.outbound ++ [.TransmitFail] },
           [.send m], .cont) ∧
    (st.outbound ++ [Event.TransmitFail]).count .TransmitFail
        = st.outbound.count .TransmitFail + 1 ∧
    receiveFromClient f st (.CanMessage m :: rest) =
      ⟨(receiveFromClient f { st with outbound := st.outbound ++ [.TransmitFail] } rest).state,
       .send m ::
         (receiveFromClient f { st with outbound := st.outbound ++ [.TransmitFail] } rest).calls,
       (receiveFromClient f { st with outbound := st.outbound ++ [.TransmitFail] } rest).errored⟩ := by
  refine ⟨by simp [receiveDispatch, hf], by simp, ?_⟩
  simp [receiveFromClient, receiveDispatch, hf, hstop]

/-- Witness for C8: one failing send from a fresh session state. -/
theorem c8_send_failure_transmit_fail_witness :
    receiveDispatch (fun _ => true) ⟨[], false, []⟩ (.CanMessage ⟨1, [2]⟩) =
      .ok (⟨[], false, [.TransmitFail]⟩, [.send ⟨1, [2]⟩], .cont) ∧
    ([] ++ [Event.TransmitFail]).count Event.TransmitFail
        = ([] : List Event).count Event.TransmitFail + 1 ∧
    receiveFromClient (fun _ => true) ⟨[], false, []⟩ [.CanMessage ⟨1, [2]⟩] =
      ⟨(receiveFromClient (fun _ => true) ⟨[], false, [.TransmitFail]⟩ []).state,
       .send ⟨1, [2]⟩ ::
         (receiveFromClient (fun _ => true) ⟨[], false, [.TransmitFail]⟩ []).calls,
       (receiveFromClient (fun _ => true) ⟨[], false, [.TransmitFail]⟩ []).errored⟩ :=
  c8_send_failure_transmit_fail (fun _ => true) ⟨[], false, []⟩ ⟨1, [2]⟩ [] rfl rfl

/-- C9: a batch of N decoded `CanMessage` events produces exactly N
`bus.send` calls, one per message and in arrival order, regardless of
which sends fail, and the loop raises nothing. -/
theorem c9_batch_sends_in_order (f : Msg → Bool) (st : SessionState)
    (msgs : List Msg) (hstop : st.stopRequested = false) :
    (receiveFromClient f st (msgs.map Event.CanMessage)).calls
        = msgs.map BusCall.send ∧
    (receiveFromClient f st (msgs.map Event.CanMessage)).errored = none :=
  ⟨(receiveFromClient_canMessages f st msgs hstop).1,
   (receiveFromClient_canMessages f st msgs hstop).2.1⟩

/-- Witness for C9: three messages, the middle send failing. -/
theorem c9_batch_sends_in_order_witness :
    (receiveFromClient (fun m => m.arbitration_id == 2) ⟨[], false, []⟩
        ([⟨1, []⟩, ⟨2, []⟩, ⟨3, []⟩].map Event.CanMessage)).calls
      = [⟨1, []⟩, ⟨2, []⟩, ⟨3, []⟩].map BusCall.send ∧
    (receiveFromClient (fun m => m.arbitration_id == 2) ⟨[], false, []⟩
        ([⟨1, []⟩, ⟨2, []⟩, ⟨3, []⟩].map Event.CanMessage)).errored = none :=
  c9_batch_sends_in_order (fun m => m.arbitration_id == 2) ⟨[], false, []⟩
    [⟨1, []⟩, ⟨2, []⟩, ⟨3, []⟩] rfl

/-- C10: any decoded event of a type outside the four handled by the
relay dispatch (for example a `BusRequest` or `FilterConfig` arriving
after the handshake) falls through the `if`/`elif` chain: no exception,
no bus-driver call, and the session state is returned unchanged. -/
theorem c10_unhandled_event_is_noop (f : Msg → Bool) (st : SessionState)
    (e : Event) (h : relayHandled e = false) :
    receiveDispatch f st e = .ok (st, [], .cont) := by
  cases e <;> simp_all [relayHandled, receiveDispatch]

/-- Witness for C10: a stray `BusRequest` during the relay phase. -/
theorem c10_unhandled_event_is_noop_witness :
    receiveDispatch (fun _ => false) ⟨[(1, ⟨⟨1, []⟩, false⟩)], false, []⟩
        (.BusRequest 1 500000)
      = .ok (⟨[(1, ⟨⟨1, []⟩, false⟩)], false, []⟩, [], .cont) :=
  c10_unhandled_event_is_noop (fun _ => false)
    ⟨[(1, ⟨⟨1, []⟩, false⟩)], false, []⟩ (.BusRequest 1 500000) rfl

end RemoteCan
